import Mathlib

/-!
Verification development for the multi-agent task-orchestration core.

The repository describes four LangGraph orchestration patterns; the
design under verification is Pattern 3 (sequential reliable) and
Pattern 4 (sequential with compression), together with the
AdvancedMemoryManager (episodic and semantic memory).  The Python
snippets of src/unnamed/part_002 are embedded shallowly: the LLM
generation capability, the embedding capability and the vector-store
retrieval are external and appear as function parameters; state nodes
become functions on an explicit state record; a node that would raise
(an out-of-range subtask index) returns none.
-/

/-- Python dict assignment d[k] = v on an insertion-ordered association
list: replace the value in place when the key is present, otherwise
append at the end.  This is the semantics of state with sub_results
updates in the source nodes. -/
def dictInsert : List (String × String) → String → String → List (String × String)
  | [], k, v => [(k, v)]
  | p :: d, k, v => if p.1 == k then (k, v) :: d else p :: dictInsert d k v

/-- Lookup in an insertion-ordered association list (Python d[k]). -/
def dictLookup : List (String × String) → String → Option String
  | [], _ => none
  | p :: d, k => if p.1 == k then some p.2 else dictLookup d k

/-- The AgentState TypedDict of src/unnamed/part_002 (State Schema),
restricted to the fields the sequential patterns read or write.  The
messages field is never consulted by the sequential nodes and the
enhanced memory fields are carried by the memory manager below. -/
structure AgentState where
  task : String
  subtasks : List String
  sub_results : List (String × String)
  final_result : String
  context : String
  compressed_context : String
deriving Repr, DecidableEq

/-- Decimal digit value of a character, none for a non-digit. -/
def digitVal (c : Char) : Option Nat :=
  if decide (48 ≤ c.toNat) && decide (c.toNat ≤ 57) then some (c.toNat - 48) else none

/-- Accumulating decimal parse over a character list. -/
def parseNatAux : List Char → Nat → Option Nat
  | [], acc => some acc
  | c :: cs, acc =>
    match digitVal c with
    | some d => parseNatAux cs (acc * 10 + d)
    | none => none

/-- Python int(s) on a non-negative decimal string (none when s is
empty or holds a non-digit, the ValueError branch). -/
def parseInt (s : String) : Option Nat :=
  match s.data with
  | [] => none
  | cs => parseNatAux cs 0

/-- int(agent_id) - 1, the positional index used by every agent node
(state subtasks indexed by int(agent_id)-1 in the source). -/
def agentIndex (agent_id : String) : Nat :=
  (parseInt agent_id).getD 0 - 1

/-- The PromptTemplate of sequential_agent_node
(src/unnamed/part_002 lines 789-817) with its variables substituted. -/
def agentPromptText (agent_id context task : String) : String :=
  "\n            You are Sub-agent " ++ agent_id ++
  ".\n            \n            Previous context: " ++ context ++
  "\n            Current task: " ++ task ++
  "\n            \n            Build upon previous work and complete your task.\n            "

/-- sequential_agent_node of src/unnamed/part_002 (lines 789-817):
reads subtasks[int(agent_id)-1] (none when the index is out of range,
the Python IndexError branch), invokes the generation capability on the
assembled prompt, records the result under agent_id in sub_results and
appends the tagged result to the cumulative context. -/
def sequential_agent_node (gen : String → String) (agent_id : String)
    (s : AgentState) : Option AgentState :=
  match s.subtasks[agentIndex agent_id]? with
  | none => none
  | some task =>
    let result := gen (agentPromptText agent_id s.context task)
    some { s with
      sub_results := dictInsert s.sub_results agent_id result,
      context := s.context ++ "\n[Agent " ++ agent_id ++ "]: " ++ result }

/-- Modelled from the spec: merge_sequential_node is wired into
create_sequential_reliable_graph but never defined in the source; the
Result Aggregator contract prescribes one generation call synthesizing
all subtask outputs into final_result, touching no other field. -/
def merge_sequential_node (gen : String → String) (s : AgentState) : AgentState :=
  let prompt := (s.sub_results.map (fun p => p.2)).foldl (fun a b => a ++ "\n" ++ b) "Synthesize:"
  { s with final_result := gen prompt }

/-- create_sequential_reliable_graph of src/unnamed/part_002
(lines 771-787): the linear path agent_1 -> agent_2 -> merger, starting
from the state produced by the task breaker (the planner output is the
subtasks field of the initial state). -/
def runSequentialReliable (gen : String → String) (s0 : AgentState) : Option AgentState :=
  (sequential_agent_node gen "1" s0).bind (fun s1 =>
    (sequential_agent_node gen "2" s1).map (merge_sequential_node gen))

/-- The subtask ids the Planner assigns: subtasks carry no explicit id
in the source state schema, so a subtask is identified by its 1-based
position rendered as a string, matching the agent_id keys "1", "2"
used by the hard-coded agent nodes. -/
def plannedIds (subtasks : List String) : List String :=
  (List.range subtasks.length).map (fun i => Nat.repr (i + 1))

/-! ## Episodic and semantic memory (AdvancedMemoryManager) -/

/-- The episode_data dict handed to add_episode.  The source stores two
shapes: the per-agent record of enhanced_sequential_agent_node and the
compression record of enhanced_compress_context_node. -/
inductive EpisodeData where
  | agentStep (agent_id task result context : String)
  | compression (original_context compressed_context : String)
deriving Repr, DecidableEq

/-- str(episode_data), the text the embedding capability receives. -/
def episodeDataText : EpisodeData → String
  | .agentStep a t r c => "agent " ++ a ++ " task " ++ t ++ " result " ++ r ++ " context " ++ c
  | .compression o c => "compression of " ++ o ++ " into " ++ c

/-- The agent id of a per-agent episode record, none for a compression
record. -/
def epAgentId : EpisodeData → Option String
  | .agentStep a _ _ _ => some a
  | .compression _ _ => none

/-- The episode dict built by AdvancedMemoryManager.add_episode
(src/unnamed/part_002 lines 95-103): id, timestamp, data, embeddings. -/
structure Episode where
  id : Nat
  timestamp : Nat
  data : EpisodeData
  embeddings : List Float
deriving Repr

/-- The mutable fields of AdvancedMemoryManager (lines 88-116):
episodic_memory is the append-only episode list; semantic_memory is the
dict the consolidation stub would update. -/
structure MemoryManager where
  episodic_memory : List Episode
  semantic_memory : List (String × String)
deriving Repr

/-- AdvancedMemoryManager.add_episode (lines 95-103): the new episode
id is len(episodic_memory), the record is appended at the end and
nothing else changes. -/
def add_episode (embed : String → List Float) (now : Nat)
    (m : MemoryManager) (episode_data : EpisodeData) : MemoryManager :=
  { m with episodic_memory := m.episodic_memory ++
      [{ id := m.episodic_memory.length, timestamp := now,
         data := episode_data, embeddings := embed (episodeDataText episode_data) }] }

/-- AdvancedMemoryManager.update_semantic_memory (lines 111-116): the
body is a pass stub, so the manager is returned unchanged. -/
def update_semantic_memory (m : MemoryManager) : MemoryManager := m

/-! ## Pattern 3 Enhanced (sequential reliable with advanced memory) -/

/-- The external capabilities the enhanced nodes call: the generation
and embedding capabilities, the episodic retrieval and its formatter,
the semantic-context lookup (retrieve_relevant_episodes and
get_semantic_context have no body in the source, so they stay
abstract oracles here) and the clock. -/
structure Caps where
  gen : String → String
  embed : String → List Float
  retrieveEpisodes : String → List Episode
  formatEpisodes : List Episode → String
  semanticContext : String → String
  now : Nat

/-- The graph state threaded by the enhanced pattern: the LangGraph
AgentState plus the process-wide memory manager the nodes mutate. -/
structure EnhState where
  agent : AgentState
  mem : MemoryManager

/-- The comprehensive context f-string of enhanced_sequential_agent_node
(src/unnamed/part_002 lines 273-324). -/
def enhancedContextText (prev episodes semantic : String) : String :=
  "\n    Previous work: " ++ prev ++
  "\n    Relevant episodes: " ++ episodes ++
  "\n    Semantic knowledge: " ++ semantic ++ "\n    "

/-- The PromptTemplate of enhanced_sequential_agent_node with its
variables substituted. -/
def enhancedPromptText (agent_id context task : String) : String :=
  "\n            You are Sub-agent " ++ agent_id ++
  ".\n            \n            Context: " ++ context ++
  "\n            Current task: " ++ task ++
  "\n            \n            Build upon previous work and complete your task.\n            "

/-- enhanced_sequential_agent_node (src/unnamed/part_002 lines 273-324):
retrieve episodic and semantic memory for the subtask, build the
comprehensive context, invoke the capability, hot-append an episode to
the memory manager, record the result under agent_id and grow the
cumulative context. -/
def enhanced_sequential_agent_node (c : Caps) (agent_id : String)
    (st : EnhState) : Option EnhState :=
  match st.agent.subtasks[agentIndex agent_id]? with
  | none => none
  | some task =>
    let episodes := c.retrieveEpisodes task
    let semantic := c.semanticContext task
    let context := enhancedContextText (st.agent.context) (c.formatEpisodes episodes) semantic
    let result := c.gen (enhancedPromptText agent_id context task)
    let epData := EpisodeData.agentStep agent_id task result context
    some { agent := { st.agent with
             sub_results := dictInsert st.agent.sub_results agent_id result,
             context := st.agent.context ++ "\n[Agent " ++ agent_id ++ "]: " ++ result },
           mem := add_episode c.embed c.now st.mem epData }

/-- consolidate_memory_node (src/unnamed/part_002 lines 326-334): the
analysis feeds update_semantic_memory, whose body is a pass stub, so
the node leaves the state unchanged apart from that identity call. -/
def consolidate_memory_node (st : EnhState) : EnhState :=
  { st with mem := update_semantic_memory st.mem }

/-- Modelled from the spec: merge_enhanced_node is wired into
create_sequential_reliable_enhanced_graph but never defined in the
source; the Result Aggregator contract prescribes one generation call
setting final_result and touching no other field. -/
def merge_enhanced_node (gen : String → String) (st : EnhState) : EnhState :=
  let prompt := (st.agent.sub_results.map (fun p => p.2)).foldl (fun a b => a ++ "\n" ++ b) "Synthesize:"
  { st with agent := { st.agent with final_result := gen prompt } }

/-- create_sequential_reliable_enhanced_graph (src/unnamed/part_002
lines 250-271): the linear path agent_1 -> agent_2 ->
memory_consolidator -> merger, starting from the state produced by the
task breaker and the memory initializer. -/
def runSequentialEnhanced (c : Caps) (st0 : EnhState) : Option EnhState :=
  (enhanced_sequential_agent_node c "1" st0).bind (fun st1 =>
    (enhanced_sequential_agent_node c "2" st1).map (fun st2 =>
      merge_enhanced_node c.gen (consolidate_memory_node st2)))

/-! ## Pattern 4 (sequential with compression) -/

/-- The graph state threaded by the compressed pattern: the AgentState
plus the long_term_memory save_context log, one (context, compressed)
pair per compressor invocation. -/
structure CompState where
  agent : AgentState
  ltm : List (String × String)
deriving Repr, DecidableEq

/-- The compression PromptTemplate of compress_context_node
(src/unnamed/part_002 lines 864-890) with its variable substituted. -/
def compressionPromptText (context : String) : String :=
  "\n            Compress the following context into key insights (<200 words):\n            \n            Context: " ++
  context ++
  "\n            \n            Preserve: Task goals, completed work, key decisions\n            Remove: Verbose explanations, redundant information\n            "

/-- compress_context_node (src/unnamed/part_002 lines 864-890): one
generation call on the compression prompt, its response stored
wholesale in compressed_context, and the (context, compressed) pair
saved to long-term memory.  The node runs unconditionally wherever the
graph places it and applies no length check to either side. -/
def compress_context_node (gen : String → String) (st : CompState) : CompState :=
  let compressed := gen (compressionPromptText st.agent.context)
  { agent := { st.agent with compressed_context := compressed },
    ltm := st.ltm ++ [(st.agent.context, compressed)] }

/-- The PromptTemplate of compressed_agent_node with its variables
substituted. -/
def compressedPromptText (agent_id compressed relevant task : String) : String :=
  "\n            You are Sub-agent " ++ agent_id ++
  ".\n            \n            Compressed context: " ++ compressed ++
  "\n            Relevant history: " ++ relevant ++
  "\n            Current task: " ++ task ++
  "\n            \n            Complete your task efficiently.\n            "

/-- compressed_agent_node (src/unnamed/part_002 lines 892-923):
retrieve relevant history from long-term memory (the vector-store
lookup stays an abstract oracle), invoke the capability on the
compressed context and record the result; the cumulative context field
is not touched by this node. -/
def compressed_agent_node (gen : String → String) (retrieve : String → String)
    (agent_id : String) (st : CompState) : Option CompState :=
  match st.agent.subtasks[agentIndex agent_id]? with
  | none => none
  | some task =>
    let relevant := retrieve task
    let result := gen (compressedPromptText agent_id st.agent.compressed_context relevant task)
    some { st with agent := { st.agent with
             sub_results := dictInsert st.agent.sub_results agent_id result } }

/-- Modelled from the spec: merge_compressed_node is wired into
create_sequential_compressed_graph but never defined in the source; the
Result Aggregator contract prescribes one generation call setting
final_result and touching no other field. -/
def merge_compressed_node (gen : String → String) (st : CompState) : CompState :=
  let prompt := (st.agent.sub_results.map (fun p => p.2)).foldl (fun a b => a ++ "\n" ++ b) "Synthesize:"
  { st with agent := { st.agent with final_result := gen prompt } }

/-- create_sequential_compressed_graph (src/unnamed/part_002 lines
840-862): the linear path compress_1 -> agent_1 -> compress_2 ->
agent_2 -> compress_final -> merger, starting from the state produced
by the task breaker. -/
def runSequentialCompressed (gen : String → String) (retrieve : String → String)
    (st0 : CompState) : Option CompState :=
  (compressed_agent_node gen retrieve "1" (compress_context_node gen st0)).bind (fun st1 =>
    (compressed_agent_node gen retrieve "2" (compress_context_node gen st1)).map (fun st2 =>
      merge_compressed_node gen (compress_context_node gen st2)))

/-! ## Compression failure recovery (modelled from the spec) -/

/-- The last n characters of a string, the truncation fallback target. -/
def truncateLast (n : Nat) (s : String) : String :=
  String.mk (s.data.drop (s.data.length - n))

/-- Modelled from the spec: the source compress_context_node has no
failure handling at all; the Context Compressor design makes
compressor failure non-fatal, falling back to truncating
cumulative_context to the last n characters and continuing the run.
The compressor capability is fallible here (none is the failure). -/
def compress_context_node_rec (genO : String → Option String) (n : Nat)
    (st : CompState) : CompState :=
  match genO (compressionPromptText st.agent.context) with
  | some compressed =>
    { agent := { st.agent with compressed_context := compressed },
      ltm := st.ltm ++ [(st.agent.context, compressed)] }
  | none =>
    { st with agent := { st.agent with context := truncateLast n st.agent.context } }

/-- Modelled from the spec: the compressed-graph run with the
recovering compressor in place of the bare one. -/
def runSequentialCompressedRec (genO : String → Option String) (n : Nat)
    (gen : String → String) (retrieve : String → String)
    (st0 : CompState) : Option CompState :=
  (compressed_agent_node gen retrieve "1" (compress_context_node_rec genO n st0)).bind (fun st1 =>
    (compressed_agent_node gen retrieve "2" (compress_context_node_rec genO n st1)).map (fun st2 =>
      merge_compressed_node gen (compress_context_node_rec genO n st2)))

/-! ## Memory Consolidator (modelled from the spec) -/

/-- A consolidated knowledge unit of the semantic store. -/
structure SemanticFact where
  id : Nat
  statement_text : String
  support_count : Nat
  source_episode_ids : List Nat
deriving Repr, DecidableEq

/-- The semantic store the Consolidator maintains: the fact list plus
the guard set of episode ids already consolidated. -/
structure SemanticStore where
  facts : List SemanticFact
  consolidated_ids : List Nat
deriving Repr, DecidableEq

/-- Modelled from the spec: AdvancedMemoryManager.update_semantic_memory
(src/unnamed/part_002 lines 111-116) is a pass stub and
analyze_episodic_patterns has no body, so the Memory Consolidator step
is taken from its design contract: skip an episode whose id was already
consolidated; otherwise extract a candidate statement, merge into the
first sufficiently similar existing fact (increment support_count,
append the source episode id) or insert a new fact, and record the
episode id as consolidated.  Extraction and the similarity test are
capability-side and stay abstract. -/
def consolidateEpisode (extract : Episode → String)
    (similar : String → SemanticFact → Bool)
    (st : SemanticStore) (ep : Episode) : SemanticStore :=
  if st.consolidated_ids.contains ep.id then st
  else
    let cand := extract ep
    let facts :=
      match st.facts.find? (fun f => similar cand f) with
      | some f =>
        st.facts.map (fun g =>
          if g.id == f.id then
            { g with support_count := g.support_count + 1,
                     source_episode_ids := g.source_episode_ids ++ [ep.id] }
          else g)
      | none =>
        st.facts ++ [{ id := st.facts.length, statement_text := cand,
                       support_count := 1, source_episode_ids := [ep.id] }]
    { facts := facts, consolidated_ids := st.consolidated_ids ++ [ep.id] }

/-- Modelled from the spec: one Consolidator pass over a batch of
episodes, folding the per-episode step. -/
def consolidateEpisodes (extract : Episode → String)
    (similar : String → SemanticFact → Bool)
    (eps : List Episode) (st : SemanticStore) : SemanticStore :=
  eps.foldl (consolidateEpisode extract similar) st

/-! ## Retry coordinator (modelled from the spec) -/

/-- Terminal outcome of a coordinated run: success with the full
insertion-ordered results, or the Failed state carrying the failing
subtask id and the results recorded before the failure. -/
inductive RunOutcome where
  | success (results : List (Nat × String))
  | failed (failing : Nat) (results : List (Nat × String))
deriving Repr, DecidableEq

/-- Modelled from the spec: the retry loop of the Sequential
Coordinator (the source has only diagram pseudocode for it in
src/unnamed/part_008 lines 283-298).  cap gives the capability outcome
per attempt number; up to fuel attempts are made, the first success
wins, and exhaustion yields none. -/
def retryInvoke (cap : Nat → Option String) : Nat → Nat → Option String
  | _, 0 => none
  | attempt, fuel + 1 =>
    match cap attempt with
    | some r => some r
    | none => retryInvoke cap (attempt + 1) fuel

/-- Modelled from the spec: the Sequential Coordinator loop over the
remaining subtasks, i the position of the next one.  cap i k is the
capability outcome for subtask i on attempt k; maxRetries bounds the
attempts per subtask.  On exhaustion the run transitions to Failed
with the failing position recorded and no later subtask executed. -/
def coordinateFrom (cap : Nat → Nat → Option String) (maxRetries : Nat)
    (i : Nat) : List String → RunOutcome
  | [] => .success []
  | _ :: rest =>
    match retryInvoke (cap i) 0 maxRetries with
    | some r =>
      match coordinateFrom cap maxRetries (i + 1) rest with
      | .success rs => .success ((i, r) :: rs)
      | .failed f rs => .failed f ((i, r) :: rs)
    | none => .failed i []

/-- Modelled from the spec: a whole coordinated run over the Planner
output. -/
def coordinateRun (cap : Nat → Nat → Option String) (maxRetries : Nat)
    (subtasks : List String) : RunOutcome :=
  coordinateFrom cap maxRetries 0 subtasks

/-! ## Helper lemmas -/

theorem dictLookup_dictInsert_self (d : List (String × String)) (k v : String) :
    dictLookup (dictInsert d k v) k = some v := by
  induction d with
  | nil => simp [dictInsert, dictLookup]
  | cons p d ih =>
    by_cases h : (p.1 == k) = true
    · simp [dictInsert, dictLookup, h]
    · simp only [Bool.not_eq_true] at h
      simp [dictInsert, dictLookup, h, ih]

theorem dictLookup_dictInsert_other (d : List (String × String)) (k k' v : String)
    (hk : (k == k') = false) :
    dictLookup (dictInsert d k v) k' = dictLookup d k' := by
  induction d with
  | nil => simp [dictInsert, dictLookup, hk]
  | cons p d ih =>
    by_cases h : (p.1 == k) = true
    · have hp : p.1 = k := eq_of_beq h
      simp [dictInsert, dictLookup, h, hp, hk]
    · simp only [Bool.not_eq_true] at h
      simp [dictInsert, dictLookup, h, ih]

theorem agentIndex_one : agentIndex "1" = 0 := by decide

theorem agentIndex_two : agentIndex "2" = 1 := by decide

theorem strAppendAssoc (a b c : String) : a ++ b ++ c = a ++ (b ++ c) :=
  String.append_assoc a b c

theorem beqOneTwo : (("1" : String) == "2") = false := by decide

theorem beqTwoOne : (("2" : String) == "1") = false := by decide

/-- The successor state sequential_agent_node computes once the subtask
lookup succeeded. -/
def seqStep (gen : String → String) (agent_id : String) (s : AgentState)
    (task : String) : AgentState :=
  let result := gen (agentPromptText agent_id s.context task)
  { s with
    sub_results := dictInsert s.sub_results agent_id result,
    context := s.context ++ "\n[Agent " ++ agent_id ++ "]: " ++ result }

theorem sequential_agent_node_eq (gen : String → String) (agent_id : String)
    (s : AgentState) :
    sequential_agent_node gen agent_id s =
      (s.subtasks[agentIndex agent_id]?).map (seqStep gen agent_id s) := by
  cases h : s.subtasks[agentIndex agent_id]? <;>
    simp [sequential_agent_node, h, seqStep]

theorem seqStep_subtasks (gen : String → String) (agent_id : String)
    (s : AgentState) (task : String) :
    (seqStep gen agent_id s task).subtasks = s.subtasks := rfl

theorem merge_sequential_node_sub_results (gen : String → String) (s : AgentState) :
    (merge_sequential_node gen s).sub_results = s.sub_results := rfl

theorem runSequentialReliable_cons (gen : String → String) (s0 : AgentState)
    (t1 t2 : String) (rest : List String) (hsub : s0.subtasks = t1 :: t2 :: rest) :
    runSequentialReliable gen s0 =
      some (merge_sequential_node gen (seqStep gen "2" (seqStep gen "1" s0 t1) t2)) := by
  simp [runSequentialReliable, sequential_agent_node_eq, hsub, agentIndex_one,
        agentIndex_two, seqStep_subtasks]

/-! ## Claim theorems -/

/-- C9: every episode added by AdvancedMemoryManager.add_episode gets
id len(episodic_memory), so ids are the consecutive integers 0, 1, ...
in creation order, and the episode list is append-only: the old list
is preserved unchanged as a prefix. -/
theorem C9_add_episode_ids (embed : String → List Float) (now : Nat)
    (m : MemoryManager) (d : EpisodeData) :
    (add_episode embed now m d).episodic_memory =
      m.episodic_memory ++
        [{ id := m.episodic_memory.length, timestamp := now, data := d,
           embeddings := embed (episodeDataText d) }] ∧
    (m.episodic_memory.map Episode.id = List.range m.episodic_memory.length →
      (add_episode embed now m d).episodic_memory.map Episode.id =
        List.range (add_episode embed now m d).episodic_memory.length) := by
  constructor
  · rfl
  · intro h
    simp [add_episode, List.range_succ, h]

/-- C9 witness: adding one episode to an empty store yields id 0 and
the singleton list, with ids equal to range 1. -/
theorem C9_add_episode_ids_witness :
    (add_episode (fun _ => []) 7 { episodic_memory := [], semantic_memory := [] }
        (.compression "a" "b")).episodic_memory =
      [] ++ [{ id := 0, timestamp := 7, data := .compression "a" "b", embeddings := [] }] ∧
    (add_episode (fun _ => []) 7 { episodic_memory := [], semantic_memory := [] }
        (.compression "a" "b")).episodic_memory.map Episode.id =
      List.range (add_episode (fun _ => []) 7 { episodic_memory := [], semantic_memory := [] }
        (.compression "a" "b")).episodic_memory.length :=
  ⟨(C9_add_episode_ids (fun _ => []) 7 { episodic_memory := [], semantic_memory := [] }
      (.compression "a" "b")).1,
   (C9_add_episode_ids (fun _ => []) 7 { episodic_memory := [], semantic_memory := [] }
      (.compression "a" "b")).2 (by simp)⟩

/-- C10: the sequential reliable graph hard-codes agents "1" and "2",
each indexing subtasks positionally at int(agent_id)-1; with fewer
than two planned subtasks the run hits the out-of-range branch (none)
instead of completing or reaching a Failed state, and with exactly one
subtask it is agent 2 whose access is out of bounds after agent 1
succeeded. -/
theorem C10_short_plan_out_of_bounds (gen : String → String) (s0 : AgentState)
    (hlen : s0.subtasks.length < 2) :
    runSequentialReliable gen s0 = none ∧
    (∀ t, s0.subtasks = [t] →
      ∃ s1, sequential_agent_node gen "1" s0 = some s1 ∧
        s1.subtasks[agentIndex "2"]? = none) := by
  cases hsub : s0.subtasks with
  | nil =>
    constructor
    · simp [runSequentialReliable, sequential_agent_node, agentIndex_one, hsub]
    · intro t ht
      simp at ht
  | cons t ts =>
    cases hts : ts with
    | nil =>
      subst hts
      constructor
      · simp [runSequentialReliable, sequential_agent_node, agentIndex_one,
              agentIndex_two, hsub]
      · intro t' ht
        refine ⟨{ s0 with
            sub_results := dictInsert s0.sub_results "1"
              (gen (agentPromptText "1" s0.context t)),
            context := s0.context ++ "\n[Agent " ++ "1" ++ "]: " ++
              gen (agentPromptText "1" s0.context t) }, ?_, ?_⟩
        · simp [sequential_agent_node, agentIndex_one, hsub]
        · simp [agentIndex_two, hsub]
    | cons t2 ts' =>
      subst hts
      rw [hsub] at hlen
      simp at hlen
      omega

/-- C10 witness: a one-subtask plan makes the run abort with the
out-of-range access at agent 2. -/
theorem C10_short_plan_out_of_bounds_witness :
    runSequentialReliable (fun _ => "r")
      { task := "t", subtasks := ["only"], sub_results := [],
        final_result := "", context := "", compressed_context := "" } = none ∧
    (∀ t, (["only"] : List String) = [t] →
      ∃ s1, sequential_agent_node (fun _ => "r") "1"
          { task := "t", subtasks := ["only"], sub_results := [],
            final_result := "", context := "", compressed_context := "" } = some s1 ∧
        s1.subtasks[agentIndex "2"]? = none) :=
  C10_short_plan_out_of_bounds (fun _ => "r")
    { task := "t", subtasks := ["only"], sub_results := [],
      final_result := "", context := "", compressed_context := "" } (by decide)

/-- C2 counterexample: with three planned subtasks the run still
completes (it is a successful run: both hard-coded agents and the
merger finish), yet results holds only keys "1" and "2" while the
planned ids also include "3" — results keys do not equal the planned
subtask id set. -/
theorem C2_results_keys_counterexample :
    (runSequentialReliable (fun _ => "r")
      { task := "t", subtasks := ["a", "b", "c"], sub_results := [],
        final_result := "", context := "", compressed_context := "" }).map
      (fun s => s.sub_results.map (fun p => p.1)) = some ["1", "2"] ∧
    "3" ∈ plannedIds ["a", "b", "c"] ∧
    "3" ∉ ["1", "2"] := by decide

/-- C2 amended: for every run of the sequential reliable graph that
ends in success, results keys are exactly ["1", "2"] in that order —
which equals the planned subtask id set exactly when the Planner
produced exactly two subtasks; the hard-coded two-agent graph leaves
any further planned subtask without a results entry. -/
theorem C2_results_keys_success (gen : String → String) (s0 : AgentState)
    (h0 : s0.sub_results = []) (t1 t2 : String) (rest : List String)
    (hsub : s0.subtasks = t1 :: t2 :: rest) :
    ∃ sf, runSequentialReliable gen s0 = some sf ∧
      sf.sub_results.map (fun p => p.1) = ["1", "2"] ∧
      (rest = [] → sf.sub_results.map (fun p => p.1) = plannedIds s0.subtasks) := by
  have hkeys :
      (merge_sequential_node gen
        (seqStep gen "2" (seqStep gen "1" s0 t1) t2)).sub_results.map (fun p => p.1) =
        ["1", "2"] := by
    simp [merge_sequential_node_sub_results, seqStep, h0, dictInsert, beqOneTwo]
  refine ⟨_, runSequentialReliable_cons gen s0 t1 t2 rest hsub, hkeys, ?_⟩
  intro hrest
  subst hrest
  rw [hkeys, hsub]
  simp only [plannedIds, List.length_cons, List.length_nil]
  decide

/-- C2 witness: a two-subtask plan run to success has results keys
["1", "2"], equal to the planned ids. -/
theorem C2_results_keys_success_witness :
    ∃ sf, runSequentialReliable (fun _ => "r")
        { task := "t", subtasks := ["a", "b"], sub_results := [],
          final_result := "", context := "", compressed_context := "" } = some sf ∧
      sf.sub_results.map (fun p => p.1) = ["1", "2"] ∧
      (([] : List String) = [] →
        sf.sub_results.map (fun p => p.1) =
          plannedIds (AgentState.subtasks
            { task := "t", subtasks := ["a", "b"], sub_results := [],
              final_result := "", context := "", compressed_context := "" })) :=
  C2_results_keys_success (fun _ => "r")
    { task := "t", subtasks := ["a", "b"], sub_results := [],
      final_result := "", context := "", compressed_context := "" }
    rfl "a" "b" [] rfl

/-- C6 counterexample: the compressor stores the generation response
verbatim, with no length check; on an empty cumulative context and a
five-character response the output is strictly longer than the input,
so compression does increase context length. -/
theorem C6_compression_length_counterexample :
    ¬ ((compress_context_node (fun _ => "xxxxx")
          { agent := { task := "t", subtasks := ["a", "b"], sub_results := [],
                       final_result := "", context := "", compressed_context := "" },
            ltm := [] }).agent.compressed_context.length ≤
        (AgentState.context
          { task := "t", subtasks := ["a", "b"], sub_results := [],
            final_result := "", context := "", compressed_context := "" }).length) := by
  decide

/-- C6 amended: compress_context_node sets compressed_context to
exactly the generation capability response on the compression prompt
and enforces no bound itself; the output respects the input length (or
any configured limit) exactly when the capability response does. -/
theorem C6_compression_length (gen : String → String) (st : CompState) :
    (compress_context_node gen st).agent.compressed_context =
      gen (compressionPromptText st.agent.context) ∧
    ((gen (compressionPromptText st.agent.context)).length ≤ st.agent.context.length →
      (compress_context_node gen st).agent.compressed_context.length ≤
        st.agent.context.length) ∧
    (∀ bound : Nat, (gen (compressionPromptText st.agent.context)).length ≤ bound →
      (compress_context_node gen st).agent.compressed_context.length ≤ bound) :=
  ⟨rfl, fun h => h, fun _ h => h⟩

/-- C6 witness: with a capability that answers the empty string the
compressed output (length 0) is within both the input length and the
1200-character limit. -/
theorem C6_compression_length_witness :
    (compress_context_node (fun _ => "")
        { agent := { task := "t", subtasks := ["a", "b"], sub_results := [],
                     final_result := "", context := "ctx", compressed_context := "" },
          ltm := [] }).agent.compressed_context.length ≤
      (AgentState.context
        { task := "t", subtasks := ["a", "b"], sub_results := [],
          final_result := "", context := "ctx", compressed_context := "" }).length ∧
    (compress_context_node (fun _ => "")
        { agent := { task := "t", subtasks := ["a", "b"], sub_results := [],
                     final_result := "", context := "ctx", compressed_context := "" },
          ltm := [] }).agent.compressed_context.length ≤ 1200 :=
  ⟨(C6_compression_length (fun _ => "")
      { agent := { task := "t", subtasks := ["a", "b"], sub_results := [],
                   final_result := "", context := "ctx", compressed_context := "" },
        ltm := [] }).2.1 (by decide),
   (C6_compression_length (fun _ => "")
      { agent := { task := "t", subtasks := ["a", "b"], sub_results := [],
                   final_result := "", context := "ctx", compressed_context := "" },
        ltm := [] }).2.2 1200 (by decide)⟩

/-- C1: in the sequential reliable graph agent 2 steps strictly after
agent 1: agent 1 output is already recorded under key "1" in the state
agent 2 consumes, the rest of the run is computed from exactly that
state, and the prompt context assembled for subtask 2 contains the
subtask 1 output text verbatim. -/
theorem C1_sequential_context_contract (gen : String → String) (s0 : AgentState)
    (t1 t2 : String) (rest : List String) (hsub : s0.subtasks = t1 :: t2 :: rest) :
    ∃ s1, sequential_agent_node gen "1" s0 = some s1 ∧
      dictLookup s1.sub_results "1" = some (gen (agentPromptText "1" s0.context t1)) ∧
      s1.subtasks[agentIndex "2"]? = some t2 ∧
      runSequentialReliable gen s0 =
        (sequential_agent_node gen "2" s1).map (merge_sequential_node gen) ∧
      ∃ pre post, agentPromptText "2" s1.context t2 =
        pre ++ gen (agentPromptText "1" s0.context t1) ++ post := by
  have hnode1 : sequential_agent_node gen "1" s0 = some (seqStep gen "1" s0 t1) := by
    simp [sequential_agent_node_eq, hsub, agentIndex_one]
  refine ⟨seqStep gen "1" s0 t1, hnode1, ?_, ?_, ?_, ?_⟩
  · exact dictLookup_dictInsert_self s0.sub_results "1" _
  · simp [seqStep_subtasks, hsub, agentIndex_two]
  · simp [runSequentialReliable, hnode1]
  · refine ⟨"\n            You are Sub-agent " ++ "2" ++
        ".\n            \n            Previous context: " ++
        (s0.context ++ "\n[Agent " ++ "1" ++ "]: "),
      "\n            Current task: " ++ t2 ++
        "\n            \n            Build upon previous work and complete your task.\n            ",
      ?_⟩
    simp [agentPromptText, seqStep, strAppendAssoc]

/-- C1 witness: the two-subtask scenario; agent 1 output is recorded
before agent 2 assembles its prompt and appears in that prompt. -/
theorem C1_sequential_context_contract_witness :
    ∃ s1, sequential_agent_node (fun _ => "r1") "1"
        { task := "t", subtasks := ["research X", "summarize X"], sub_results := [],
          final_result := "", context := "", compressed_context := "" } = some s1 ∧
      dictLookup s1.sub_results "1" =
        some ((fun _ => "r1")
          (agentPromptText "1"
            (AgentState.context
              { task := "t", subtasks := ["research X", "summarize X"], sub_results := [],
                final_result := "", context := "", compressed_context := "" })
            "research X")) ∧
      s1.subtasks[agentIndex "2"]? = some "summarize X" ∧
      runSequentialReliable (fun _ => "r1")
          { task := "t", subtasks := ["research X", "summarize X"], sub_results := [],
            final_result := "", context := "", compressed_context := "" } =
        (sequential_agent_node (fun _ => "r1") "2" s1).map
          (merge_sequential_node (fun _ => "r1")) ∧
      ∃ pre post, agentPromptText "2" s1.context "summarize X" =
        pre ++ (fun _ => "r1")
          (agentPromptText "1"
            (AgentState.context
              { task := "t", subtasks := ["research X", "summarize X"], sub_results := [],
                final_result := "", context := "", compressed_context := "" })
            "research X") ++ post :=
  C1_sequential_context_contract (fun _ => "r1")
    { task := "t", subtasks := ["research X", "summarize X"], sub_results := [],
      final_result := "", context := "", compressed_context := "" }
    "research X" "summarize X" [] rfl

/-- The successor state enhanced_sequential_agent_node computes once
the subtask lookup succeeded. -/
def enhStep (c : Caps) (agent_id : String) (st : EnhState) (task : String) : EnhState :=
  let episodes := c.retrieveEpisodes task
  let semantic := c.semanticContext task
  let context := enhancedContextText st.agent.context (c.formatEpisodes episodes) semantic
  let result := c.gen (enhancedPromptText agent_id context task)
  let epData := EpisodeData.agentStep agent_id task result context
  { agent := { st.agent with
      sub_results := dictInsert st.agent.sub_results agent_id result,
      context := st.agent.context ++ "\n[Agent " ++ agent_id ++ "]: " ++ result },
    mem := add_episode c.embed c.now st.mem epData }

theorem enhanced_sequential_agent_node_eq (c : Caps) (agent_id : String)
    (st : EnhState) :
    enhanced_sequential_agent_node c agent_id st =
      (st.agent.subtasks[agentIndex agent_id]?).map (enhStep c agent_id st) := by
  cases h : st.agent.subtasks[agentIndex agent_id]? <;>
    simp [enhanced_sequential_agent_node, h, enhStep]

theorem enhStep_subtasks (c : Caps) (agent_id : String) (st : EnhState)
    (task : String) :
    (enhStep c agent_id st task).agent.subtasks = st.agent.subtasks := rfl


/-- C3: the enhanced sequential graph executes subtasks in exactly the
Planner output order: results keys are appended as ["1", "2"]
(completion order non-decreasing in subtask position), the prior
episode list is preserved as a prefix, and the two episodes created
during the run carry agent ids "1" then "2" with consecutive ids —
episode creation order matches subtask completion order. -/
theorem C3_execution_order (c : Caps) (st0 : EnhState) (t1 t2 : String)
    (rest : List String) (hsub : st0.agent.subtasks = t1 :: t2 :: rest)
    (h0 : st0.agent.sub_results = []) :
    ∃ stf,
      runSequentialEnhanced c st0 = some stf ∧
      stf.agent.sub_results.map (fun p => p.1) = ["1", "2"] ∧
      stf.mem.episodic_memory.take st0.mem.episodic_memory.length =
        st0.mem.episodic_memory ∧
      (stf.mem.episodic_memory.drop st0.mem.episodic_memory.length).map
          (fun e => epAgentId e.data) = [some "1", some "2"] ∧
      (stf.mem.episodic_memory.drop st0.mem.episodic_memory.length).map
          Episode.id =
        [st0.mem.episodic_memory.length, st0.mem.episodic_memory.length + 1] := by
  have hrun : runSequentialEnhanced c st0 =
      some (merge_enhanced_node c.gen
        (consolidate_memory_node (enhStep c "2" (enhStep c "1" st0 t1) t2))) := by
    simp [runSequentialEnhanced, enhanced_sequential_agent_node_eq, hsub,
          agentIndex_one, agentIndex_two, enhStep_subtasks]
  have hmem : (merge_enhanced_node c.gen
      (consolidate_memory_node (enhStep c "2" (enhStep c "1" st0 t1) t2))).mem.episodic_memory =
      st0.mem.episodic_memory ++
        [{ id := st0.mem.episodic_memory.length, timestamp := c.now,
           data := EpisodeData.agentStep "1" t1
             (c.gen (enhancedPromptText "1"
               (enhancedContextText st0.agent.context
                 (c.formatEpisodes (c.retrieveEpisodes t1)) (c.semanticContext t1)) t1))
             (enhancedContextText st0.agent.context
               (c.formatEpisodes (c.retrieveEpisodes t1)) (c.semanticContext t1)),
           embeddings := c.embed (episodeDataText (EpisodeData.agentStep "1" t1
             (c.gen (enhancedPromptText "1"
               (enhancedContextText st0.agent.context
                 (c.formatEpisodes (c.retrieveEpisodes t1)) (c.semanticContext t1)) t1))
             (enhancedContextText st0.agent.context
               (c.formatEpisodes (c.retrieveEpisodes t1)) (c.semanticContext t1)))) },
         { id := st0.mem.episodic_memory.length + 1, timestamp := c.now,
           data := EpisodeData.agentStep "2" t2
             (c.gen (enhancedPromptText "2"
               (enhancedContextText (enhStep c "1" st0 t1).agent.context
                 (c.formatEpisodes (c.retrieveEpisodes t2)) (c.semanticContext t2)) t2))
             (enhancedContextText (enhStep c "1" st0 t1).agent.context
               (c.formatEpisodes (c.retrieveEpisodes t2)) (c.semanticContext t2)),
           embeddings := c.embed (episodeDataText (EpisodeData.agentStep "2" t2
             (c.gen (enhancedPromptText "2"
               (enhancedContextText (enhStep c "1" st0 t1).agent.context
                 (c.formatEpisodes (c.retrieveEpisodes t2)) (c.semanticContext t2)) t2))
             (enhancedContextText (enhStep c "1" st0 t1).agent.context
               (c.formatEpisodes (c.retrieveEpisodes t2)) (c.semanticContext t2)))) }] := by
    simp [merge_enhanced_node, consolidate_memory_node, update_semantic_memory,
          enhStep, add_episode]
  refine ⟨_, hrun, ?_, ?_, ?_, ?_⟩
  · simp [merge_enhanced_node, consolidate_memory_node, update_semantic_memory,
          enhStep, h0, dictInsert, beqOneTwo]
  · rw [hmem, List.take_left]
  · rw [hmem, List.drop_left]
    rfl
  · rw [hmem, List.drop_left]
    rfl

/-- C3 witness: the concrete two-subtask scenario starting from an
empty episode store. -/
theorem C3_execution_order_witness :
    ∃ stf,
      runSequentialEnhanced
          { gen := fun _ => "r", embed := fun _ => [], retrieveEpisodes := fun _ => [],
            formatEpisodes := fun _ => "", semanticContext := fun _ => "", now := 5 }
          { agent := { task := "t", subtasks := ["a", "b"], sub_results := [],
                       final_result := "", context := "", compressed_context := "" },
            mem := { episodic_memory := [], semantic_memory := [] } } = some stf ∧
      stf.agent.sub_results.map (fun p => p.1) = ["1", "2"] ∧
      stf.mem.episodic_memory.take
          (MemoryManager.episodic_memory
            { episodic_memory := [], semantic_memory := [] }).length =
        MemoryManager.episodic_memory { episodic_memory := [], semantic_memory := [] } ∧
      (stf.mem.episodic_memory.drop
          (MemoryManager.episodic_memory
            { episodic_memory := [], semantic_memory := [] }).length).map
          (fun e => epAgentId e.data) = [some "1", some "2"] ∧
      (stf.mem.episodic_memory.drop
          (MemoryManager.episodic_memory
            { episodic_memory := [], semantic_memory := [] }).length).map
          Episode.id =
        [(MemoryManager.episodic_memory
            { episodic_memory := [], semantic_memory := [] }).length,
         (MemoryManager.episodic_memory
            { episodic_memory := [], semantic_memory := [] }).length + 1] :=
  C3_execution_order
    { gen := fun _ => "r", embed := fun _ => [], retrieveEpisodes := fun _ => [],
      formatEpisodes := fun _ => "", semanticContext := fun _ => "", now := 5 }
    { agent := { task := "t", subtasks := ["a", "b"], sub_results := [],
                 final_result := "", context := "", compressed_context := "" },
      mem := { episodic_memory := [], semantic_memory := [] } }
    "a" "b" [] rfl rfl

theorem consolidateEpisode_of_mem (extract : Episode → String)
    (similar : String → SemanticFact → Bool) (st : SemanticStore) (ep : Episode)
    (h : ep.id ∈ st.consolidated_ids) :
    consolidateEpisode extract similar st ep = st := by
  simp [consolidateEpisode, h]

theorem consolidateEpisode_mem_mono (extract : Episode → String)
    (similar : String → SemanticFact → Bool) (st : SemanticStore) (ep : Episode)
    (x : Nat) (h : x ∈ st.consolidated_ids) :
    x ∈ (consolidateEpisode extract similar st ep).consolidated_ids := by
  by_cases hc : ep.id ∈ st.consolidated_ids
  · simp [consolidateEpisode, hc, h]
  · simp [consolidateEpisode, hc, h]

theorem consolidateEpisode_mem_self (extract : Episode → String)
    (similar : String → SemanticFact → Bool) (st : SemanticStore) (ep : Episode) :
    ep.id ∈ (consolidateEpisode extract similar st ep).consolidated_ids := by
  by_cases hc : ep.id ∈ st.consolidated_ids
  · simp [consolidateEpisode, hc]
  · simp [consolidateEpisode, hc]

theorem consolidateEpisodes_mem_mono (extract : Episode → String)
    (similar : String → SemanticFact → Bool) (eps : List Episode) (x : Nat) :
    ∀ st : SemanticStore, x ∈ st.consolidated_ids →
      x ∈ (consolidateEpisodes extract similar eps st).consolidated_ids := by
  induction eps with
  | nil => intro st h; simpa [consolidateEpisodes] using h
  | cons ep eps ih =>
    intro st h
    have h1 := consolidateEpisode_mem_mono extract similar st ep x h
    simpa [consolidateEpisodes] using ih _ h1

theorem consolidateEpisodes_mem_all (extract : Episode → String)
    (similar : String → SemanticFact → Bool) (eps : List Episode) :
    ∀ st : SemanticStore, ∀ ep ∈ eps,
      ep.id ∈ (consolidateEpisodes extract similar eps st).consolidated_ids := by
  induction eps with
  | nil => intro st ep h; cases h
  | cons e eps ih =>
    intro st ep h
    cases h with
    | head =>
      have h1 := consolidateEpisode_mem_self extract similar st e
      have := consolidateEpisodes_mem_mono extract similar eps e.id
        (consolidateEpisode extract similar st e) h1
      simpa [consolidateEpisodes] using this
    | tail _ hmem =>
      have := ih (consolidateEpisode extract similar st e) ep hmem
      simpa [consolidateEpisodes] using this

theorem consolidateEpisodes_of_all_mem (extract : Episode → String)
    (similar : String → SemanticFact → Bool) (eps : List Episode) :
    ∀ st : SemanticStore,
      (∀ ep ∈ eps, ep.id ∈ st.consolidated_ids) →
      consolidateEpisodes extract similar eps st = st := by
  induction eps with
  | nil => intro st _; rfl
  | cons e eps ih =>
    intro st h
    have he : consolidateEpisode extract similar st e = st :=
      consolidateEpisode_of_mem extract similar st e (h e (List.mem_cons_self e eps))
    have hrest : consolidateEpisodes extract similar eps st = st :=
      ih st (fun ep hm => h ep (List.mem_cons_of_mem e hm))
    calc consolidateEpisodes extract similar (e :: eps) st
        = consolidateEpisodes extract similar eps (consolidateEpisode extract similar st e) := rfl
      _ = consolidateEpisodes extract similar eps st := by rw [he]
      _ = st := hrest

/-- C5: the Memory Consolidator is idempotent: a second pass over an
already-consolidated episode batch changes nothing — in particular the
semantic fact count is unchanged — because every processed episode id
is recorded in the consolidated-id guard and guarded episodes are
skipped. -/
theorem C5_consolidation_idempotent (extract : Episode → String)
    (similar : String → SemanticFact → Bool) (eps : List Episode)
    (st : SemanticStore) :
    consolidateEpisodes extract similar eps
        (consolidateEpisodes extract similar eps st) =
      consolidateEpisodes extract similar eps st ∧
    (consolidateEpisodes extract similar eps
        (consolidateEpisodes extract similar eps st)).facts.length =
      (consolidateEpisodes extract similar eps st).facts.length := by
  have h : consolidateEpisodes extract similar eps
      (consolidateEpisodes extract similar eps st) =
      consolidateEpisodes extract similar eps st :=
    consolidateEpisodes_of_all_mem extract similar eps _
      (fun ep hm => consolidateEpisodes_mem_all extract similar eps st ep hm)
  exact ⟨h, by rw [h]⟩

theorem retryInvoke_none_of_all_none (cap : Nat → Option String)
    (h : ∀ k, cap k = none) : ∀ a fuel, retryInvoke cap a fuel = none := by
  intro a fuel
  induction fuel generalizing a with
  | zero => rfl
  | succ fuel ih => simp [retryInvoke, h, ih]

theorem coordinateFrom_failed (cap : Nat → Nat → Option String) (m : Nat) :
    ∀ (ts : List String) (i j : Nat), j < ts.length →
      (∀ d, d < j → (retryInvoke (cap (i + d)) 0 m).isSome = true) →
      retryInvoke (cap (i + j)) 0 m = none →
      ∃ rs, coordinateFrom cap m i ts = .failed (i + j) rs ∧
        rs.map (fun p => p.1) = (List.range j).map (fun d => i + d) := by
  intro ts
  induction ts with
  | nil => intro i j hj _ _; cases hj
  | cons t rest ih =>
    intro i j hj hearlier hfail
    cases j with
    | zero =>
      refine ⟨[], ?_, by simp⟩
      simp only [coordinateFrom]
      rw [show i + 0 = i from rfl] at hfail
      simp [hfail]
    | succ j =>
      have h0 : (retryInvoke (cap (i + 0)) 0 m).isSome = true :=
        hearlier 0 (Nat.succ_pos j)
      rw [show i + 0 = i from rfl] at h0
      obtain ⟨r, hr⟩ := Option.isSome_iff_exists.mp h0
      have hearlier' : ∀ d, d < j → (retryInvoke (cap ((i + 1) + d)) 0 m).isSome = true := by
        intro d hd
        have := hearlier (d + 1) (Nat.succ_lt_succ hd)
        rwa [show i + (d + 1) = (i + 1) + d by omega] at this
      have hfail' : retryInvoke (cap ((i + 1) + j)) 0 m = none := by
        rwa [show i + (j + 1) = (i + 1) + j by omega] at hfail
      have hlen : j < rest.length := Nat.lt_of_succ_lt_succ hj
      obtain ⟨rs, hrun, hmap⟩ := ih (i + 1) j hlen hearlier' hfail'
      refine ⟨(i, r) :: rs, ?_, ?_⟩
      · simp only [coordinateFrom]
        rw [hr, hrun]
        have : (i + 1) + j = i + (j + 1) := by omega
        rw [this]
      · simp only [List.map_cons, hmap, List.range_succ_eq_map, List.map_map]
        refine congrArg (fun l => i :: l) ?_
        apply List.map_congr_left
        intro d _
        simp [Function.comp]
        omega

/-- C4: when a subtask capability keeps failing past the retry budget
while every earlier subtask succeeded within it, the coordinated run
ends in the Failed terminal state carrying the failing subtask id, no
later subtask is executed, and results holds entries exactly for the
subtasks strictly before the failing one. -/
theorem C4_retry_exhaustion_fails_run (cap : Nat → Nat → Option String)
    (maxRetries : Nat) (subtasks : List String) (j : Nat)
    (hj : j < subtasks.length)
    (hearlier : ∀ d, d < j → (retryInvoke (cap d) 0 maxRetries).isSome = true)
    (hfail : ∀ k, cap j k = none) :
    ∃ rs, coordinateRun cap maxRetries subtasks = .failed j rs ∧
      rs.map (fun p => p.1) = List.range j := by
  have h := coordinateFrom_failed cap maxRetries subtasks 0 j hj
    (by intro d hd; simpa using hearlier d hd)
    (by simpa using retryInvoke_none_of_all_none (cap j) hfail 0 maxRetries)
  simpa [coordinateRun] using h

/-- C4 witness: three planned subtasks, subtask 0 succeeding at once
and subtask 1 failing on every attempt with maxRetries = 3: the run
fails at subtask 1 and results holds exactly subtask 0. -/
theorem C4_retry_exhaustion_fails_run_witness :
    ∃ rs, coordinateRun
        (fun i _ => if i = 0 then some "r0" else none) 3 ["a", "b", "c"] =
        .failed 1 rs ∧
      rs.map (fun p => p.1) = List.range 1 :=
  C4_retry_exhaustion_fails_run (fun i _ => if i = 0 then some "r0" else none)
    3 ["a", "b", "c"] 1 (by decide)
    (by intro d hd; interval_cases d; decide)
    (fun k => rfl)

/-- The successor state compressed_agent_node computes once the subtask
lookup succeeded. -/
def compAgentStep (gen retrieve : String → String) (agent_id : String)
    (st : CompState) (task : String) : CompState :=
  let relevant := retrieve task
  let result := gen (compressedPromptText agent_id st.agent.compressed_context relevant task)
  { st with agent := { st.agent with
      sub_results := dictInsert st.agent.sub_results agent_id result } }

theorem compressed_agent_node_eq (gen retrieve : String → String)
    (agent_id : String) (st : CompState) :
    compressed_agent_node gen retrieve agent_id st =
      (st.agent.subtasks[agentIndex agent_id]?).map
        (compAgentStep gen retrieve agent_id st) := by
  cases h : st.agent.subtasks[agentIndex agent_id]? <;>
    simp [compressed_agent_node, h, compAgentStep]

theorem compress_context_node_subtasks (gen : String → String) (st : CompState) :
    (compress_context_node gen st).agent.subtasks = st.agent.subtasks := rfl

theorem compAgentStep_subtasks (gen retrieve : String → String)
    (agent_id : String) (st : CompState) (task : String) :
    (compAgentStep gen retrieve agent_id st task).agent.subtasks =
      st.agent.subtasks := rfl

theorem runSequentialCompressed_cons (gen retrieve : String → String)
    (st0 : CompState) (t1 t2 : String) (rest : List String)
    (hsub : st0.agent.subtasks = t1 :: t2 :: rest) :
    runSequentialCompressed gen retrieve st0 =
      some (merge_compressed_node gen (compress_context_node gen
        (compAgentStep gen retrieve "2" (compress_context_node gen
          (compAgentStep gen retrieve "1" (compress_context_node gen st0) t1)) t2))) := by
  simp [runSequentialCompressed, compressed_agent_node_eq, hsub, agentIndex_one,
        agentIndex_two, compress_context_node_subtasks, compAgentStep_subtasks]

/-- C7 counterexample: the compressed graph runs its compressor with an
empty cumulative context: three compressor invocations happen (three
long-term-memory records appended) although the context length 0 never
exceeds the 2000-character threshold — the compressor is not invoked
exactly when the threshold is exceeded. -/
theorem C7_compression_trigger_counterexample :
    (runSequentialCompressed (fun _ => "c") (fun _ => "h")
        { agent := { task := "t", subtasks := ["a", "b"], sub_results := [],
                     final_result := "", context := "", compressed_context := "" },
          ltm := [] }).map (fun st => st.ltm.length) = some 3 ∧
    ¬ (2000 < (AgentState.context
        { task := "t", subtasks := ["a", "b"], sub_results := [],
          final_result := "", context := "", compressed_context := "" }).length) := by
  constructor
  · decide
  · decide

/-- C7 amended: the compressed graph invokes the compressor
unconditionally at its three fixed graph points regardless of context
length (a completed run always appends exactly three long-term-memory
records), and each compression step mutates only compressed_context
and the memory record, leaving task, subtasks, sub_results, cumulative
context and final_result unchanged. -/
theorem C7_compression_unconditional_frame (gen retrieve : String → String)
    (st : CompState) :
    ((compress_context_node gen st).agent.task = st.agent.task ∧
     (compress_context_node gen st).agent.subtasks = st.agent.subtasks ∧
     (compress_context_node gen st).agent.sub_results = st.agent.sub_results ∧
     (compress_context_node gen st).agent.context = st.agent.context ∧
     (compress_context_node gen st).agent.final_result = st.agent.final_result ∧
     (compress_context_node gen st).agent.compressed_context =
       gen (compressionPromptText st.agent.context) ∧
     (compress_context_node gen st).ltm =
       st.ltm ++ [(st.agent.context, gen (compressionPromptText st.agent.context))]) ∧
    (∀ stf, runSequentialCompressed gen retrieve st = some stf →
      stf.ltm.length = st.ltm.length + 3) := by
  refine ⟨⟨rfl, rfl, rfl, rfl, rfl, rfl, rfl⟩, ?_⟩
  intro stf hrun
  cases hsub : st.agent.subtasks with
  | nil =>
    rw [runSequentialCompressed] at hrun
    simp [compressed_agent_node_eq, compress_context_node_subtasks, hsub,
          agentIndex_one] at hrun
  | cons t1 ts =>
    cases hts : ts with
    | nil =>
      subst hts
      rw [runSequentialCompressed] at hrun
      simp [compressed_agent_node_eq, compress_context_node_subtasks,
            compAgentStep_subtasks, hsub, agentIndex_one, agentIndex_two] at hrun
    | cons t2 rest =>
      subst hts
      rw [runSequentialCompressed_cons gen retrieve st t1 t2 rest hsub] at hrun
      cases hrun
      simp [merge_compressed_node, compress_context_node, compAgentStep]

/-- C7 witness: a completed concrete run appends exactly three
long-term-memory records. -/
theorem C7_compression_unconditional_frame_witness :
    (runSequentialCompressed (fun _ => "c") (fun _ => "h")
        { agent := { task := "t", subtasks := ["a", "b"], sub_results := [],
                     final_result := "", context := "x", compressed_context := "" },
          ltm := [] }).map (fun st => st.ltm.length) =
      some ((CompState.ltm
        { agent := { task := "t", subtasks := ["a", "b"], sub_results := [],
                     final_result := "", context := "x", compressed_context := "" },
          ltm := [] }).length + 3) := by
  cases hrun : runSequentialCompressed (fun _ => "c") (fun _ => "h")
      { agent := { task := "t", subtasks := ["a", "b"], sub_results := [],
                   final_result := "", context := "x", compressed_context := "" },
        ltm := [] } with
  | none => exact absurd hrun (by decide)
  | some stf =>
    have h := (C7_compression_unconditional_frame (fun _ => "c") (fun _ => "h")
      { agent := { task := "t", subtasks := ["a", "b"], sub_results := [],
                   final_result := "", context := "x", compressed_context := "" },
        ltm := [] }).2 stf hrun
    simp [h]

theorem compress_context_node_rec_subtasks (genO : String → Option String)
    (n : Nat) (st : CompState) :
    (compress_context_node_rec genO n st).agent.subtasks = st.agent.subtasks := by
  cases h : genO (compressionPromptText st.agent.context) <;>
    simp [compress_context_node_rec, h]

theorem compress_context_node_rec_sub_results (genO : String → Option String)
    (n : Nat) (st : CompState) :
    (compress_context_node_rec genO n st).agent.sub_results = st.agent.sub_results := by
  cases h : genO (compressionPromptText st.agent.context) <;>
    simp [compress_context_node_rec, h]

theorem runSequentialCompressedRec_cons (genO : String → Option String) (n : Nat)
    (gen retrieve : String → String) (st0 : CompState) (t1 t2 : String)
    (rest : List String) (hsub : st0.agent.subtasks = t1 :: t2 :: rest) :
    runSequentialCompressedRec genO n gen retrieve st0 =
      some (merge_compressed_node gen (compress_context_node_rec genO n
        (compAgentStep gen retrieve "2" (compress_context_node_rec genO n
          (compAgentStep gen retrieve "1"
            (compress_context_node_rec genO n st0) t1)) t2))) := by
  have h1 : (compress_context_node_rec genO n st0).agent.subtasks = t1 :: t2 :: rest := by
    rw [compress_context_node_rec_subtasks, hsub]
  have h2 : (compress_context_node_rec genO n
      (compAgentStep gen retrieve "1"
        (compress_context_node_rec genO n st0) t1)).agent.subtasks = t1 :: t2 :: rest := by
    rw [compress_context_node_rec_subtasks, compAgentStep_subtasks, h1]
  simp [runSequentialCompressedRec, compressed_agent_node_eq, h1, h2,
        agentIndex_one, agentIndex_two]

theorem merge_compressed_node_sub_results (gen : String → String) (st : CompState) :
    (merge_compressed_node gen st).agent.sub_results = st.agent.sub_results := rfl

/-- C8 (modelled from the spec): compressor failure is non-fatal: with
the truncation fallback in place the run completes for every failure
pattern of the compressor capability — both subtask results get
recorded — the fallback truncation never grows the context
(its length is min n of the original), and when the compressor fails
the step only truncates cumulative_context to its last n characters
and continues. -/
theorem C8_compression_failure_nonfatal (genO : String → Option String) (n : Nat)
    (gen retrieve : String → String) (st0 : CompState) (t1 t2 : String)
    (rest : List String) (hsub : st0.agent.subtasks = t1 :: t2 :: rest) :
    (∃ stf, runSequentialCompressedRec genO n gen retrieve st0 = some stf ∧
      (dictLookup stf.agent.sub_results "1").isSome = true ∧
      (dictLookup stf.agent.sub_results "2").isSome = true) ∧
    (∀ s : String, (truncateLast n s).length = min n s.length) ∧
    ((∀ p, genO p = none) →
      compress_context_node_rec genO n st0 =
        { st0 with agent :=
            { st0.agent with context := truncateLast n st0.agent.context } }) := by
  refine ⟨?_, ?_, ?_⟩
  · refine ⟨_, runSequentialCompressedRec_cons genO n gen retrieve st0 t1 t2 rest hsub,
      ?_, ?_⟩
    · rw [merge_compressed_node_sub_results, compress_context_node_rec_sub_results]
      simp only [compAgentStep]
      rw [dictLookup_dictInsert_other _ _ _ _ beqTwoOne,
          compress_context_node_rec_sub_results]
      simp only [compAgentStep]
      rw [dictLookup_dictInsert_self]
      rfl
    · rw [merge_compressed_node_sub_results, compress_context_node_rec_sub_results]
      simp only [compAgentStep]
      rw [dictLookup_dictInsert_self]
      rfl
  · intro s
    show (s.data.drop (s.data.length - n)).length = min n s.data.length
    rw [List.length_drop]
    omega
  · intro h
    simp [compress_context_node_rec, h]

/-- C8 witness: with a compressor that always fails the concrete run
still completes with both results recorded, and the fallback step
truncates the 8-character context to its last 4 characters. -/
theorem C8_compression_failure_nonfatal_witness :
    (∃ stf, runSequentialCompressedRec (fun _ => none) 4 (fun _ => "r") (fun _ => "h")
        { agent := { task := "t", subtasks := ["a", "b"], sub_results := [],
                     final_result := "", context := "abcdefgh", compressed_context := "" },
          ltm := [] } = some stf ∧
      (dictLookup stf.agent.sub_results "1").isSome = true ∧
      (dictLookup stf.agent.sub_results "2").isSome = true) ∧
    (∀ s : String, (truncateLast 4 s).length = min 4 s.length) ∧
    ((∀ p, (fun _ : String => (none : Option String)) p = none) →
      compress_context_node_rec (fun _ => none) 4
        { agent := { task := "t", subtasks := ["a", "b"], sub_results := [],
                     final_result := "", context := "abcdefgh", compressed_context := "" },
          ltm := [] } =
        { agent := { task := "t", subtasks := ["a", "b"], sub_results := [],
                     final_result := "", context := truncateLast 4 "abcdefgh",
                     compressed_context := "" },
          ltm := [] }) :=
  C8_compression_failure_nonfatal (fun _ => none) 4 (fun _ => "r") (fun _ => "h")
    { agent := { task := "t", subtasks := ["a", "b"], sub_results := [],
                 final_result := "", context := "abcdefgh", compressed_context := "" },
      ltm := [] } "a" "b" [] rfl
